import Mathlib

/-!
# Verification of the Lintora audit-orchestration core

Shallow embedding of the repository's core modules:

* `app/models/schemas.py` — enums and record types (`Severity`,
  `FindingCategory`, `FindingSource`, `Finding`, `ReportSummary`,
  `AuditReport`, `JobStatus`, job records);
* `app/analysis/engine.py` — `_deduplicate_findings`,
  `calculate_risk_level`;
* `app/storage/store.py` — the in-memory `JobStore` dictionary
  operations (`create`, `get`, `update_status`, `save_report`);
* `app/crypto/signing.py` — canonical JSON serialization and
  `sign_report` (SHA-256 + Ed25519 are modelled as an opaque
  deterministic function of the canonical bytes, held by the service);
* `app/core/pipeline.py` — `run_audit_pipeline`, with the effectful
  stages (archive extraction, the analyzer fan-out, disk writes, HTML
  rendering) supplied as `Except`-valued oracle inputs so that every
  exception path of the Python code is representable.

Python machine details kept faithfully: `dict` assignment overwrites in
place (`pyDictSet`), `sorted(..., reverse=True)` is a stable descending
sort (`List.mergeSort` with the reversed comparator), `//` is floor
division (`Int.fdiv`), `x or 0` on an optional int is `Option.getD 0`,
and `if error:` treats both `None` and `""` as falsy.
-/

namespace Lintora

/-! ## Data model (`app/models/schemas.py`) -/

/-- `JobStatus` enum. -/
inductive JobStatus where
  | pending
  | processing
  | completed
  | failed
deriving DecidableEq, Repr

/-- `Severity` enum. -/
inductive Severity where
  | critical
  | high
  | medium
  | low
  | info
deriving DecidableEq, Repr

/-- `FindingCategory` enum. -/
inductive FindingCategory where
  | reentrancy
  | access_control
  | integer_overflow
  | unchecked_return
  | denial_of_service
  | front_running
  | logic_error
  | centralization
  | upgrade_risk
  | dangerous_function
  | other
deriving DecidableEq, Repr

/-- The `.value` string of a `FindingCategory` member. -/
def FindingCategory.value : FindingCategory → String
  | .reentrancy => "reentrancy"
  | .access_control => "access_control"
  | .integer_overflow => "integer_overflow"
  | .unchecked_return => "unchecked_return"
  | .denial_of_service => "denial_of_service"
  | .front_running => "front_running"
  | .logic_error => "logic_error"
  | .centralization => "centralization"
  | .upgrade_risk => "upgrade_risk"
  | .dangerous_function => "dangerous_function"
  | .other => "other"

/-- `FindingSource` enum. -/
inductive FindingSource where
  | heuristic
  | mythril
  | ai
deriving DecidableEq, Repr

/-- The `.value` string of a `FindingSource` member. -/
def FindingSource.value : FindingSource → String
  | .heuristic => "heuristic"
  | .mythril => "mythril"
  | .ai => "ai"

/-- The `.value` string of a `Severity` member. -/
def Severity.value : Severity → String
  | .critical => "critical"
  | .high => "high"
  | .medium => "medium"
  | .low => "low"
  | .info => "info"

/-- `Finding` pydantic model.  `line_number` is an optional Python int,
so it is modelled as `Option Int`. -/
structure Finding where
  id : String
  severity : Severity
  category : FindingCategory
  title : String
  description : String
  file_path : String
  line_number : Option Int := none
  source : FindingSource := .heuristic
  recommendation : Option String := none
  swc_id : Option String := none
deriving DecidableEq, Repr

/-- `ReportSummary` pydantic model. -/
structure ReportSummary where
  total_findings : Nat := 0
  critical : Nat := 0
  high : Nat := 0
  medium : Nat := 0
  low : Nat := 0
  info : Nat := 0
  files_scanned : Nat := 0
  solidity_files : Nat := 0
  analyzers_used : List String := []
deriving DecidableEq, Repr

/-- `AuditReport` pydantic model.  The timestamp is carried as the
string that `json.dumps(..., default=str)` would emit for it. -/
structure AuditReport where
  project_name : String
  timestamp : String
  code_hash : String
  risk_level : String := "LOW"
  summary : ReportSummary := {}
  findings : List Finding := []
  signature : Option String := none
  public_key : Option String := none
deriving DecidableEq, Repr

/-! ## Analysis engine (`app/analysis/engine.py`) -/

/-- `SOURCE_PRIORITY` dict of `_deduplicate_findings` (`.get(source, 0)`
never falls back to the default because the enum is closed). -/
def SOURCE_PRIORITY : FindingSource → Nat
  | .mythril => 3
  | .ai => 2
  | .heuristic => 1

/-- The comparator realised by
`sorted(findings, key=lambda f: SOURCE_PRIORITY..., reverse=True)`:
Python's sort is stable, and `reverse=True` sorts the integer keys
descending while keeping ties in input order, which is exactly
`List.mergeSort` with this comparator. -/
def trustGE (a b : Finding) : Bool :=
  SOURCE_PRIORITY b.source ≤ SOURCE_PRIORITY a.source

/-- The dedup key `(f.file_path, (f.line_number or 0) // 5,
f.category.value)`.  `or 0` maps both `None` and `0` to `0`, i.e.
`Option.getD 0`; `//` is Python floor division, i.e. `Int.fdiv`. -/
def dedupKey (f : Finding) : String × Int × String :=
  (f.file_path, Int.fdiv (f.line_number.getD 0) 5, f.category.value)

/-- The `for f in sorted_findings: ...` loop of `_deduplicate_findings`:
keep the first finding seen for each key, remember keys in `seen`. -/
def dedupLoop : List Finding → List (String × Int × String) → List Finding
  | [], _ => []
  | f :: rest, seen =>
    let key := dedupKey f
    if key ∈ seen then
      dedupLoop rest seen
    else
      f :: dedupLoop rest (key :: seen)

/-- `_deduplicate_findings`. -/
def _deduplicate_findings (findings : List Finding) : List Finding :=
  dedupLoop (findings.mergeSort trustGE) []

/-- `calculate_risk_level`. -/
def calculate_risk_level (findings : List Finding) : String :=
  let critical := findings.countP (fun f => f.severity == .critical)
  let high := findings.countP (fun f => f.severity == .high)
  let medium := findings.countP (fun f => f.severity == .medium)
  if critical > 0 then "CRITICAL"
  else if high ≥ 2 then "HIGH"
  else if high == 1 || medium ≥ 3 then "MEDIUM"
  else "LOW"

/-- The ordinal reading LOW < MEDIUM < HIGH < CRITICAL of the risk
labels, used to state monotonicity. -/
def riskRank (s : String) : Nat :=
  if s = "CRITICAL" then 3
  else if s = "HIGH" then 2
  else if s = "MEDIUM" then 1
  else 0

/-- The highest trust rank among the findings of `l` whose dedup key is
`k` (`0` when there is none).  Used to state which duplicate the
consolidator keeps. -/
def maxTrust (l : List Finding) (k : String × Int × String) : Nat :=
  ((l.filter (fun f => dedupKey f == k)).map
    (fun f => SOURCE_PRIORITY f.source)).foldr max 0

/-! ## Job store (`app/storage/store.py`) -/

/-- `JobRecord` dataclass. -/
structure JobRecord where
  job_id : String
  project_name : String
  code_hash : String
  status : JobStatus := .pending
  report : Option AuditReport := none
  error : Option String := none
deriving DecidableEq, Repr

/-- Python dict assignment `d[k] = v`: replaces the binding in place
when the key is present, appends a fresh binding otherwise. -/
def pyDictSet : List (String × α) → String → α → List (String × α)
  | [], k, v => [(k, v)]
  | (k', v') :: rest, k, v =>
    if k' = k then (k, v) :: rest else (k', v') :: pyDictSet rest k v

/-- Python `d.get(k)` / `k in d` lookup. -/
def pyDictGet : List (String × α) → String → Option α
  | [], _ => none
  | (k', v) :: rest, k => if k' = k then some v else pyDictGet rest k

/-- The `JobStore._jobs` dict.  The `threading.Lock` only serialises the
individual operations modelled here. -/
abbrev JobStore := List (String × JobRecord)

/-- `JobStore.create`: builds a fresh pending record and assigns it into
the dict (`self._jobs[job_id] = record`), returning it. -/
def JobStore.create (s : JobStore) (job_id project_name code_hash : String) :
    JobStore × JobRecord :=
  let record : JobRecord :=
    { job_id := job_id, project_name := project_name, code_hash := code_hash }
  (pyDictSet s job_id record, record)

/-- `JobStore.get`. -/
def JobStore.get (s : JobStore) (job_id : String) : Option JobRecord :=
  pyDictGet s job_id

/-- Python truthiness of the optional `error` argument: `if error:` is
false for both `None` and the empty string. -/
def truthyStr : Option String → Bool
  | none => false
  | some s => !(s == "")

/-- `JobStore.update_status`: when the job id is present, overwrite its
status unconditionally and overwrite its error only when `error` is
truthy. -/
def JobStore.update_status (s : JobStore) (job_id : String)
    (status : JobStatus) (error : Option String) : JobStore :=
  match pyDictGet s job_id with
  | none => s
  | some r =>
    let r := { r with status := status }
    let r := if truthyStr error then { r with error := error } else r
    pyDictSet s job_id r

/-- The in-memory half of `JobStore.save_report`: attach the report and
set status to completed when the job id is present.  The subsequent
`report.json` disk write is an oracle step of the pipeline model. -/
def JobStore.save_report (s : JobStore) (job_id : String)
    (report : AuditReport) : JobStore :=
  match pyDictGet s job_id with
  | none => s
  | some r => pyDictSet s job_id { r with report := some report, status := .completed }

/-! ## Signing (`app/crypto/signing.py`) -/

/-- JSON values as produced by `model_dump` on the report: str-enum
members dump as their value strings, `datetime` is stringified by
`default=str`. -/
inductive JVal where
  | jnull
  | jstr (s : String)
  | jnum (n : Int)
  | jarr (xs : List JVal)
  | jobj (fields : List (String × JVal))

/-- Key comparison used by `json.dumps(..., sort_keys=True)`; dict keys
are unique, so comparing keys alone matches CPython's item sort. -/
def keyLE (a b : String × JVal) : Bool :=
  a.1 ≤ b.1

mutual

/-- Recursively sort every object's fields by key, as
`json.dumps(..., sort_keys=True)` does. -/
def sortJ : JVal → JVal
  | .jnull => .jnull
  | .jstr s => .jstr s
  | .jnum n => .jnum n
  | .jarr xs => .jarr (sortJList xs)
  | .jobj fs => .jobj ((sortJFields fs).mergeSort keyLE)

/-- `sortJ` mapped over an array's elements. -/
def sortJList : List JVal → List JVal
  | [] => []
  | x :: xs => sortJ x :: sortJList xs

/-- `sortJ` mapped over an object's values. -/
def sortJFields : List (String × JVal) → List (String × JVal)
  | [] => []
  | (k, v) :: fs => (k, sortJ v) :: sortJFields fs

end

mutual

/-- Serialize a (sorted) JSON value with `json.dumps` default
separators. -/
def renderJ : JVal → String
  | .jnull => "null"
  | .jstr s => "\"" ++ s ++ "\""
  | .jnum n => toString n
  | .jarr xs => "[" ++ String.intercalate ", " (renderJList xs) ++ "]"
  | .jobj fs => "\x7b" ++ String.intercalate ", " (renderJFields fs) ++ "\x7d"

/-- Rendered elements of an array. -/
def renderJList : List JVal → List String
  | [] => []
  | x :: xs => renderJ x :: renderJList xs

/-- Rendered `"key": value` entries of an object. -/
def renderJFields : List (String × JVal) → List String
  | [] => []
  | (k, v) :: fs => ("\"" ++ k ++ "\": " ++ renderJ v) :: renderJFields fs

end

/-- `canonical = json.dumps(report_dict, sort_keys=True, default=str)`. -/
def canonicalJson (d : List (String × JVal)) : String :=
  renderJ (sortJ (.jobj d))

/-- `SigningService`: the Ed25519 keypair is generated once per process
and then read-only.  `signBytes` models the deterministic composition
`hexlify ∘ ed25519_sign(private_key) ∘ sha256` applied to the canonical
bytes — an arbitrary but fixed function of the canonical string, which
is all the claims about the service use. -/
structure SigningService where
  signBytes : String → String
  public_key_hex : String

/-- `SigningService.sign_report`. -/
def SigningService.sign_report (svc : SigningService)
    (report_dict : List (String × JVal)) : String :=
  svc.signBytes (canonicalJson report_dict)

/-! ## Report dump (`model_dump` of the schemas) -/

/-- Dump of `Optional[str]`. -/
def jOptStr : Option String → JVal
  | none => .jnull
  | some s => .jstr s

/-- Dump of `Optional[int]`. -/
def jOptInt : Option Int → JVal
  | none => .jnull
  | some n => .jnum n

/-- `model_dump` of a `Finding`. -/
def findingDump (f : Finding) : JVal :=
  .jobj [("id", .jstr f.id),
         ("severity", .jstr f.severity.value),
         ("category", .jstr f.category.value),
         ("title", .jstr f.title),
         ("description", .jstr f.description),
         ("file_path", .jstr f.file_path),
         ("line_number", jOptInt f.line_number),
         ("source", .jstr f.source.value),
         ("recommendation", jOptStr f.recommendation),
         ("swc_id", jOptStr f.swc_id)]

/-- `model_dump` of a `ReportSummary`. -/
def summaryDump (s : ReportSummary) : JVal :=
  .jobj [("total_findings", .jnum s.total_findings),
         ("critical", .jnum s.critical),
         ("high", .jnum s.high),
         ("medium", .jnum s.medium),
         ("low", .jnum s.low),
         ("info", .jnum s.info),
         ("files_scanned", .jnum s.files_scanned),
         ("solidity_files", .jnum s.solidity_files),
         ("analyzers_used", .jarr (s.analyzers_used.map JVal.jstr))]

/-- `report.model_dump()` as the dict handed to `sign_report`. -/
def reportDump (r : AuditReport) : List (String × JVal) :=
  [("project_name", .jstr r.project_name),
   ("timestamp", .jstr r.timestamp),
   ("code_hash", .jstr r.code_hash),
   ("risk_level", .jstr r.risk_level),
   ("summary", summaryDump r.summary),
   ("findings", .jarr (r.findings.map findingDump)),
   ("signature", jOptStr r.signature),
   ("public_key", jOptStr r.public_key)]

/-! ## Pipeline (`app/core/pipeline.py`) -/

/-- The sealing steps of `run_audit_pipeline` (lines 87–89): sign the
dump of the report as built, then assign `signature`, then assign
`public_key`. -/
def sealReport (svc : SigningService) (r : AuditReport) : AuditReport :=
  let signature := svc.sign_report (reportDump r)
  let r1 := { r with signature := some signature }
  { r1 with public_key := some svc.public_key_hex }

/-- The `ReportSummary(...)` construction of `run_audit_pipeline`
(lines 64–74). -/
def buildSummary (findings : List Finding)
    (files_scanned solidity_files : Nat) (analyzers_used : List String) :
    ReportSummary :=
  { total_findings := findings.length,
    critical := findings.countP (fun f => f.severity == .critical),
    high := findings.countP (fun f => f.severity == .high),
    medium := findings.countP (fun f => f.severity == .medium),
    low := findings.countP (fun f => f.severity == .low),
    info := findings.countP (fun f => f.severity == .info),
    files_scanned := files_scanned,
    solidity_files := solidity_files,
    analyzers_used := analyzers_used }

/-- Oracle inputs for one `run_audit_pipeline` call: the result of each
effectful stage, as the value it returns or the message of the
exception it raises.  `codeHash` is the SHA-256 hex of the archive
bytes and `timestamp` the stringified `datetime.now(timezone.utc)`. -/
structure PipelineEnv where
  codeHash : String
  timestamp : String
  extractArchive : Except String Unit
  analyzeDirectory : Except String (List Finding × Nat × Nat × List String)
  svc : SigningService
  sealStep : Except String Unit
  persistJson : Except String Unit
  renderHtml : Except String String
  persistHtml : Except String Unit

/-- `run_audit_pipeline`: every failing stage is caught by the single
`except` clause, which runs `store.update_status(job_id, FAILED,
str(e))` and re-raises. -/
def run_audit_pipeline (env : PipelineEnv) (store : JobStore)
    (job_id project_name : String) : JobStore × Except String AuditReport :=
  let store := store.update_status job_id .processing none
  match env.extractArchive with
  | .error e => (store.update_status job_id .failed (some e), .error e)
  | .ok _ =>
  match env.analyzeDirectory with
  | .error e => (store.update_status job_id .failed (some e), .error e)
  | .ok (findings, files_scanned, sol_files, analyzers) =>
    let risk_level := calculate_risk_level findings
    let summary := buildSummary findings files_scanned sol_files analyzers
    let report : AuditReport :=
      { project_name := project_name, timestamp := env.timestamp,
        code_hash := env.codeHash, risk_level := risk_level,
        summary := summary, findings := findings }
    match env.sealStep with
    | .error e => (store.update_status job_id .failed (some e), .error e)
    | .ok _ =>
      let report := sealReport env.svc report
      let store := store.save_report job_id report
      match env.persistJson with
      | .error e => (store.update_status job_id .failed (some e), .error e)
      | .ok _ =>
      match env.renderHtml with
      | .error e => (store.update_status job_id .failed (some e), .error e)
      | .ok _html =>
      match env.persistHtml with
      | .error e => (store.update_status job_id .failed (some e), .error e)
      | .ok _ => (store, .ok report)

/-- A concrete critical finding used to instantiate universally
quantified theorems. -/
def demoCritical : Finding :=
  { id := "LIN-1", severity := .critical, category := .reentrancy,
    title := "Reentrancy", description := "External call before state update",
    file_path := "contracts/Vault.sol", line_number := some 41,
    source := .mythril }

/-- A concrete signing service: an arbitrary deterministic `signBytes`
standing for hex ∘ sign ∘ sha256 with the process key. -/
def demoSvc : SigningService :=
  { signBytes := fun s => "sig:" ++ s, public_key_hex := "deadbeef" }

/-- A concrete pre-seal report. -/
def demoReport : AuditReport :=
  { project_name := "demo", timestamp := "2025-01-01 00:00:00+00:00",
    code_hash := "h", risk_level := "LOW",
    summary := buildSummary [] 0 0 ["heuristic"], findings := [] }

/-- A store holding one freshly created job. -/
def demoStore : JobStore :=
  (JobStore.create [] "job-1" "demo" "h").1

/-- Oracle inputs for a fully successful pipeline run. -/
def demoEnvOk : PipelineEnv :=
  { codeHash := "h", timestamp := "t", extractArchive := .ok (),
    analyzeDirectory := .ok ([demoCritical], 1, 1, ["heuristic"]),
    svc := demoSvc, sealStep := .ok (), persistJson := .ok (),
    renderHtml := .ok "<html></html>", persistHtml := .ok () }

/-- Oracle inputs for a run whose HTML rendering stage raises. -/
def demoEnvHtmlFail : PipelineEnv :=
  { demoEnvOk with renderHtml := .error "boom" }

/-- Oracle inputs for a run whose analysis stage raises. -/
def demoEnvAnalyzeFail : PipelineEnv :=
  { demoEnvOk with analyzeDirectory := .error "analyzer crashed" }

/-- The report the successful demo run returns. -/
def demoOkReport : AuditReport :=
  sealReport demoSvc
    { project_name := "demo", timestamp := "t", code_hash := "h",
      risk_level := calculate_risk_level [demoCritical],
      summary := buildSummary [demoCritical] 1 1 ["heuristic"],
      findings := [demoCritical] }

end Lintora

namespace Lintora

/-! ## Python dict lemmas -/

theorem pyDictGet_set_self (s : List (String × α)) (k : String) (v : α) :
    pyDictGet (pyDictSet s k v) k = some v := by
  induction s with
  | nil => simp [pyDictSet, pyDictGet]
  | cons p rest ih =>
    obtain ⟨k', v'⟩ := p
    by_cases h : k' = k
    · simp [pyDictSet, pyDictGet, h]
    · simp [pyDictSet, pyDictGet, h, ih]

theorem pyDictGet_set_other (s : List (String × α)) (k : String) (v : α)
    (j : String) (h : j ≠ k) :
    pyDictGet (pyDictSet s k v) j = pyDictGet s j := by
  induction s with
  | nil => simp [pyDictSet, pyDictGet, Ne.symm h]
  | cons p rest ih =>
    obtain ⟨k', v'⟩ := p
    by_cases hk : k' = k
    · subst hk
      simp [pyDictSet, pyDictGet, Ne.symm h]
    · simp [pyDictSet, pyDictGet, hk, ih]

/-! ## Job store claims -/

/-- C1 counterexample: a job whose status is `completed` is moved to
`processing` by a subsequent `update_status` call, so terminal states
are not absorbing. -/
theorem terminal_not_absorbing_counterexample :
    (JobStore.get (JobStore.update_status demoStore "job-1" .completed none)
        "job-1").map JobRecord.status = some JobStatus.completed
    ∧ (JobStore.get (JobStore.update_status
        (JobStore.update_status demoStore "job-1" .completed none)
        "job-1" .processing none) "job-1").map JobRecord.status =
      some JobStatus.processing :=
  ⟨rfl, rfl⟩

/-- C1 (amended): terminal states are not absorbing.  For any job id
present in the store, `update_status` unconditionally overwrites the
job's status with the given status — also when the current status is
`completed` or `failed` — and `save_report` unconditionally sets it to
`completed`. -/
theorem update_status_overwrites_terminal (s : JobStore) (jid : String)
    (st : JobStatus) (err : Option String) (rep : AuditReport)
    (r : JobRecord) (h : JobStore.get s jid = some r) :
    (JobStore.get (JobStore.update_status s jid st err) jid).map
        JobRecord.status = some st
    ∧ (JobStore.get (JobStore.save_report s jid rep) jid).map
        JobRecord.status = some JobStatus.completed := by
  rw [JobStore.get] at h
  constructor
  · rw [JobStore.update_status, h]
    by_cases ht : truthyStr err
    · simp [ht, JobStore.get, pyDictGet_set_self]
    · simp [ht, JobStore.get, pyDictGet_set_self]
  · rw [JobStore.save_report, h]
    simp [JobStore.get, pyDictGet_set_self]

/-- C1 witness: instantiated on a store holding a completed job. -/
theorem update_status_overwrites_terminal_witness :
    (JobStore.get (JobStore.update_status
        (JobStore.update_status demoStore "job-1" .completed none)
        "job-1" .processing none) "job-1").map JobRecord.status =
      some JobStatus.processing
    ∧ (JobStore.get (JobStore.save_report
        (JobStore.update_status demoStore "job-1" .completed none)
        "job-1" demoReport) "job-1").map JobRecord.status =
      some JobStatus.completed :=
  update_status_overwrites_terminal
    (JobStore.update_status demoStore "job-1" .completed none)
    "job-1" .processing none demoReport
    { job_id := "job-1", project_name := "demo", code_hash := "h",
      status := .completed } rfl

/-- C3 counterexample: `create` on an id that already exists succeeds
and replaces the previously registered record (here the record for
`job-1` changes project name A/h1 to B/h2), instead of failing and
leaving it unchanged. -/
theorem create_existing_counterexample :
    JobStore.get (JobStore.create (JobStore.create [] "job-1" "A" "h1").1
        "job-1" "B" "h2").1 "job-1" =
      some { job_id := "job-1", project_name := "B", code_hash := "h2" }
    ∧ JobStore.get (JobStore.create [] "job-1" "A" "h1").1 "job-1" =
      some { job_id := "job-1", project_name := "A", code_hash := "h1" } :=
  ⟨rfl, rfl⟩

/-- C3 (amended): `create` never fails; it unconditionally registers a
fresh record in `pending` status under the given job id — overwriting
any record already stored there — returns that record, and leaves every
other job id's record unchanged.  On a fresh id this is exactly the
claimed registration of a new `pending` record. -/
theorem create_registers_pending_overwriting (s : JobStore)
    (job_id project_name code_hash : String) :
    (JobStore.create s job_id project_name code_hash).2 =
      { job_id := job_id, project_name := project_name,
        code_hash := code_hash, status := .pending }
    ∧ JobStore.get (JobStore.create s job_id project_name code_hash).1
        job_id =
      some { job_id := job_id, project_name := project_name,
             code_hash := code_hash, status := .pending }
    ∧ ∀ j, j ≠ job_id →
        JobStore.get (JobStore.create s job_id project_name code_hash).1 j =
          JobStore.get s j := by
  refine ⟨rfl, ?_, ?_⟩
  · simp [JobStore.create, JobStore.get, pyDictGet_set_self]
  · intro j hj
    simp [JobStore.create, JobStore.get, pyDictGet_set_other _ _ _ _ hj]

/-- C3 witness: instantiated on a store already holding the job id and
on a fresh id. -/
theorem create_registers_pending_overwriting_witness :
    JobStore.get (JobStore.create demoStore "job-1" "B" "h2").1 "job-1" =
      some { job_id := "job-1", project_name := "B", code_hash := "h2",
             status := .pending }
    ∧ JobStore.get (JobStore.create demoStore "job-1" "B" "h2").1 "other" =
      JobStore.get demoStore "other" :=
  ⟨(create_registers_pending_overwriting demoStore "job-1" "B" "h2").2.1,
   (create_registers_pending_overwriting demoStore "job-1" "B" "h2").2.2
     "other" (by decide)⟩

/-! ## Deduplication lemmas -/

theorem trustGE_trans : ∀ a b c : Finding, trustGE a b → trustGE b c → trustGE a c := by
  intro a b c
  simp only [trustGE, decide_eq_true_eq]
  omega

theorem trustGE_total : ∀ a b : Finding, trustGE a b || trustGE b a := by
  intro a b
  simp only [trustGE, Bool.or_eq_true, decide_eq_true_eq]
  omega

theorem SOURCE_PRIORITY_pos (s : FindingSource) : 1 ≤ SOURCE_PRIORITY s := by
  cases s <;> simp [SOURCE_PRIORITY]

theorem le_foldr_max (xs : List Nat) (x : Nat) (hx : x ∈ xs) :
    x ≤ xs.foldr max 0 := by
  induction xs with
  | nil => cases hx
  | cons a t ih =>
    rcases List.mem_cons.mp hx with rfl | hx'
    · exact Nat.le_max_left _ _
    · exact Nat.le_trans (ih hx') (Nat.le_max_right _ _)

theorem foldr_max_attained (xs : List Nat) (h : xs.foldr max 0 ≠ 0) :
    xs.foldr max 0 ∈ xs := by
  induction xs with
  | nil => simp at h
  | cons a t ih =>
    simp only [List.foldr_cons] at h ⊢
    rcases Nat.le_total a (t.foldr max 0) with hle | hle
    · rw [Nat.max_eq_right hle] at h ⊢
      exact List.mem_cons_of_mem _ (ih h)
    · rw [Nat.max_eq_left hle]
      exact List.mem_cons_self _ _

theorem maxTrust_le {l : List Finding} {k} {g : Finding}
    (hg : g ∈ l) (hk : dedupKey g = k) :
    SOURCE_PRIORITY g.source ≤ maxTrust l k := by
  apply le_foldr_max
  exact List.mem_map_of_mem _ (List.mem_filter.mpr ⟨hg, by simp [hk]⟩)

theorem maxTrust_attained {l : List Finding} {k} (h : maxTrust l k ≠ 0) :
    ∃ g ∈ l, dedupKey g = k ∧ SOURCE_PRIORITY g.source = maxTrust l k := by
  have hmem := foldr_max_attained _ h
  simp only [maxTrust] at hmem
  rcases List.mem_map.mp hmem with ⟨g, hg, hP⟩
  rcases List.mem_filter.mp hg with ⟨hgl, hgk⟩
  exact ⟨g, hgl, by simpa using hgk, hP⟩

theorem maxTrust_cons (a : Finding) (l : List Finding) (k) :
    maxTrust (a :: l) k =
      if dedupKey a = k then max (SOURCE_PRIORITY a.source) (maxTrust l k)
      else maxTrust l k := by
  by_cases h : dedupKey a = k <;> simp [maxTrust, List.filter_cons, h]

theorem dedupLoop_sublist : ∀ (xs : List Finding) (seen),
    List.Sublist (dedupLoop xs seen) xs := by
  intro xs
  induction xs with
  | nil => intro seen; simp [dedupLoop]
  | cons f rest ih =>
    intro seen
    simp only [dedupLoop]
    split
    · exact (ih seen).cons f
    · exact (ih _).cons₂ f

theorem dedupLoop_key_not_seen : ∀ (xs : List Finding) (seen) (f : Finding),
    f ∈ dedupLoop xs seen → dedupKey f ∉ seen := by
  intro xs
  induction xs with
  | nil => intro seen f hf; cases hf
  | cons g rest ih =>
    intro seen f hf
    simp only [dedupLoop] at hf
    split at hf
    · exact ih seen f hf
    · rcases List.mem_cons.mp hf with rfl | hf'
      · assumption
      · intro hmem
        exact ih _ f hf' (List.mem_cons_of_mem _ hmem)

theorem dedupLoop_pairwise_keys : ∀ (xs : List Finding) (seen),
    (dedupLoop xs seen).Pairwise (fun f g => dedupKey f ≠ dedupKey g) := by
  intro xs
  induction xs with
  | nil => intro seen; simp [dedupLoop]
  | cons f rest ih =>
    intro seen
    simp only [dedupLoop]
    split
    · exact ih seen
    · refine List.Pairwise.cons ?_ (ih _)
      intro g hg heq
      exact dedupLoop_key_not_seen _ _ g hg (heq ▸ List.mem_cons_self _ _)

theorem dedupLoop_find? : ∀ (xs : List Finding) (seen) (k), k ∉ seen →
    (dedupLoop xs seen).find? (fun f => dedupKey f == k) =
      xs.find? (fun f => dedupKey f == k) := by
  intro xs
  induction xs with
  | nil => intro seen k _; simp [dedupLoop]
  | cons f rest ih =>
    intro seen k hk
    simp only [dedupLoop]
    split
    · rename_i hseen
      have hb : (dedupKey f == k) = false := by
        rw [beq_eq_false_iff_ne]
        intro h
        exact hk (h ▸ hseen)
      rw [List.find?_cons]
      rw [hb]
      exact ih seen k hk
    · by_cases hfk : dedupKey f = k
      · have hb : (dedupKey f == k) = true := by simp [hfk]
        rw [List.find?_cons, List.find?_cons, hb]
      · have hb : (dedupKey f == k) = false := by simp [hfk]
        rw [List.find?_cons, List.find?_cons, hb]
        apply ih _ k
        intro h
        rcases List.mem_cons.mp h with h' | h'
        · exact hfk h'.symm
        · exact hk h'

theorem dedupLoop_of_pairwise : ∀ (xs : List Finding) (seen),
    xs.Pairwise (fun f g => dedupKey f ≠ dedupKey g) →
    (∀ f ∈ xs, dedupKey f ∉ seen) →
    dedupLoop xs seen = xs := by
  intro xs
  induction xs with
  | nil => intro seen _ _; simp [dedupLoop]
  | cons f rest ih =>
    intro seen hpw hseen
    simp only [dedupLoop]
    rw [if_neg (hseen f (List.mem_cons_self _ _))]
    congr 1
    apply ih _ (List.Pairwise.of_cons hpw)
    intro g hg
    rcases List.pairwise_cons.mp hpw with ⟨hfg, _⟩
    intro hmem
    rcases List.mem_cons.mp hmem with h' | h'
    · exact hfg g hg h'.symm
    · exact hseen g (List.mem_cons_of_mem _ hg) h'

/-- The stable descending sort places, as first element of each dedup
key class, the earliest input finding of maximal trust for that key. -/
theorem mergeSort_find?_maxTrust (l : List Finding) (k : String × Int × String) :
    (l.mergeSort trustGE).find? (fun f => dedupKey f == k) =
      l.find? (fun f =>
        dedupKey f == k && SOURCE_PRIORITY f.source == maxTrust l k) := by
  induction l with
  | nil => simp
  | cons a l ih =>
    obtain ⟨l₁, l₂, h₁, h₂, h₃⟩ :=
      List.mergeSort_cons trustGE_trans trustGE_total a l
    have hs := List.sorted_mergeSort trustGE_trans trustGE_total (a :: l)
    rw [h₁] at hs
    have hl₂ : ∀ b ∈ l₂, trustGE a b := by
      have hpw := (List.pairwise_append.mp hs).2.1
      exact (List.pairwise_cons.mp hpw).1
    rw [h₁]
    by_cases hak : dedupKey a = k
    · by_cases hP : maxTrust l k ≤ SOURCE_PRIORITY a.source
      · have hM : maxTrust (a :: l) k = SOURCE_PRIORITY a.source := by
          rw [maxTrust_cons, if_pos hak, Nat.max_eq_left hP]
        have hnone : l₁.find? (fun f => dedupKey f == k) = none := by
          rw [List.find?_eq_none]
          intro b hb hbk
          have hbl : b ∈ l := by
            have hm : b ∈ l₁ ++ l₂ := List.mem_append_left _ hb
            rw [← h₂] at hm
            exact List.mem_mergeSort.mp hm
          have hble : SOURCE_PRIORITY b.source ≤ maxTrust l k :=
            maxTrust_le hbl (by simpa using hbk)
          have hab := h₃ b hb
          simp only [trustGE, Bool.not_eq_true', decide_eq_false_iff_not] at hab
          omega
        have hpk : (dedupKey a == k) = true := by simp [hak]
        simp only [List.find?_append, hnone, List.find?_cons, hpk, hM,
          Option.none_or, Bool.true_and, beq_self_eq_true]
      · push_neg at hP
        have hM : maxTrust (a :: l) k = maxTrust l k := by
          rw [maxTrust_cons, if_pos hak, Nat.max_eq_right (Nat.le_of_lt hP)]
        have hpa : (dedupKey a == k &&
            SOURCE_PRIORITY a.source == maxTrust (a :: l) k) = false := by
          rw [hM]
          simp only [Bool.and_eq_false_iff, beq_eq_false_iff_ne]
          right
          omega
        have hMne : maxTrust l k ≠ 0 := by
          have hpos := SOURCE_PRIORITY_pos a.source
          omega
        obtain ⟨g, hgl, hgk, hgP⟩ := maxTrust_attained hMne
        have hgms : g ∈ l₁ ++ l₂ := by
          rw [← h₂]
          exact List.mem_mergeSort.mpr hgl
        have hgl₁ : g ∈ l₁ := by
          rcases List.mem_append.mp hgms with hg | hg
          · exact hg
          · exfalso
            have hge := hl₂ g hg
            simp only [trustGE, decide_eq_true_eq] at hge
            omega
        have hgsome : (l₁.find? (fun f => dedupKey f == k)).isSome :=
          List.find?_isSome.mpr ⟨g, hgl₁, by simp [hgk]⟩
        obtain ⟨x, hx⟩ := Option.isSome_iff_exists.mp hgsome
        simp only [List.find?_append, hx, List.find?_cons, hpa, Option.or_some]
        rw [hM, ← ih, h₂]
        simp only [List.find?_append, hx, Option.or_some]
    · have hM : maxTrust (a :: l) k = maxTrust l k := by
        rw [maxTrust_cons, if_neg hak]
      have hpk : (dedupKey a == k) = false := by simp [hak]
      simp only [List.find?_append, List.find?_cons, hpk, Bool.false_and]
      rw [hM, ← ih, h₂]
      simp only [List.find?_append]

/-- C4: `_deduplicate_findings` keeps at most one finding per
`(file_path, (line_number or 0) // 5, category)` key, draws its output
from the input, orders it by source trust rank descending
(mythril = 3 > ai = 2 > heuristic = 1), and for each key the kept
finding is the earliest input finding of maximal source trust for that
key (stated via `find?`: the first output finding with key `k` is the
first input finding with key `k` whose trust equals the key's maximal
trust). -/
theorem deduplicate_findings_spec (l : List Finding) :
    (∀ f ∈ _deduplicate_findings l, f ∈ l)
    ∧ (_deduplicate_findings l).Pairwise (fun f g => dedupKey f ≠ dedupKey g)
    ∧ (_deduplicate_findings l).Pairwise
        (fun f g => SOURCE_PRIORITY g.source ≤ SOURCE_PRIORITY f.source)
    ∧ ∀ k, (_deduplicate_findings l).find? (fun f => dedupKey f == k) =
        l.find? (fun f =>
          dedupKey f == k && SOURCE_PRIORITY f.source == maxTrust l k) := by
  refine ⟨?_, ?_, ?_, ?_⟩
  · intro f hf
    have hsub := dedupLoop_sublist (l.mergeSort trustGE) []
    exact List.mem_mergeSort.mp (hsub.subset hf)
  · exact dedupLoop_pairwise_keys _ _
  · have hs := List.sorted_mergeSort trustGE_trans trustGE_total l
    have hsub := dedupLoop_sublist (l.mergeSort trustGE) []
    have hpw := hs.sublist hsub
    refine hpw.imp ?_
    intro a b h
    simpa [trustGE] using h
  · intro k
    simp only [_deduplicate_findings]
    rw [dedupLoop_find? _ [] k (by simp), mergeSort_find?_maxTrust]

/-- C4 witness: instantiated on a singleton input list. -/
theorem deduplicate_findings_spec_witness :
    demoCritical ∈ [demoCritical] :=
  (deduplicate_findings_spec [demoCritical]).1 demoCritical
    (by simp [_deduplicate_findings, dedupLoop])

/-- C9: deduplication is idempotent — consolidating an
already-deduplicated finding list returns it unchanged, in the same
order. -/
theorem deduplicate_findings_idempotent (l : List Finding) :
    _deduplicate_findings (_deduplicate_findings l) =
      _deduplicate_findings l := by
  have hpkeys := dedupLoop_pairwise_keys (l.mergeSort trustGE) []
  have hs := List.sorted_mergeSort trustGE_trans trustGE_total l
  have hsub := dedupLoop_sublist (l.mergeSort trustGE) []
  have hsorted := hs.sublist hsub
  simp only [_deduplicate_findings]
  rw [List.mergeSort_of_sorted hsorted]
  exact dedupLoop_of_pairwise _ [] hpkeys (by simp)

/-! ## Store record lemmas for the pipeline -/

theorem get_update_status_some (s : JobStore) (jid : String)
    (st : JobStatus) (err : Option String) (r : JobRecord)
    (h : JobStore.get s jid = some r) :
    JobStore.get (JobStore.update_status s jid st err) jid =
      some { r with status := st,
                    error := if truthyStr err then err else r.error } := by
  rw [JobStore.get] at h
  rw [JobStore.update_status, h]
  by_cases ht : truthyStr err
  · simp [ht, JobStore.get, pyDictGet_set_self]
  · simp [ht, JobStore.get, pyDictGet_set_self]

theorem get_update_status_none (s : JobStore) (jid : String)
    (st : JobStatus) (r : JobRecord) (h : JobStore.get s jid = some r) :
    JobStore.get (JobStore.update_status s jid st none) jid =
      some { r with status := st } := by
  rw [get_update_status_some s jid st none r h]
  simp [truthyStr]

theorem get_update_status_failed (s : JobStore) (jid : String) (e : String)
    (r : JobRecord) (h : JobStore.get s jid = some r) :
    JobStore.get (JobStore.update_status s jid .failed (some e)) jid =
      some { r with status := .failed,
                    error := if e = "" then r.error else some e } := by
  rw [get_update_status_some s jid .failed (some e) r h]
  by_cases he : e = "" <;> simp [truthyStr, he]

theorem get_save_report_some (s : JobStore) (jid : String)
    (rep : AuditReport) (r : JobRecord) (h : JobStore.get s jid = some r) :
    JobStore.get (JobStore.save_report s jid rep) jid =
      some { r with report := some rep, status := .completed } := by
  rw [JobStore.get] at h
  rw [JobStore.save_report, h]
  simp [JobStore.get, pyDictGet_set_self]

theorem severity_countP_sum (l : List Finding) :
    l.countP (fun f => f.severity == .critical)
      + l.countP (fun f => f.severity == .high)
      + l.countP (fun f => f.severity == .medium)
      + l.countP (fun f => f.severity == .low)
      + l.countP (fun f => f.severity == .info) = l.length := by
  induction l with
  | nil => rfl
  | cons a t ih =>
    simp only [List.countP_cons, List.length_cons]
    rcases ha : a.severity <;> simp <;> omega

/-! ## Canonical serialization and signing -/

theorem keyLE_trans : ∀ a b c : String × JVal, keyLE a b → keyLE b c → keyLE a c := by
  intro a b c
  simp only [keyLE, decide_eq_true_eq]
  exact le_trans

theorem keyLE_total : ∀ a b : String × JVal, keyLE a b || keyLE b a := by
  intro a b
  simp only [keyLE, Bool.or_eq_true, decide_eq_true_eq]
  exact le_total a.1 b.1

/-- Two key-sorted association lists with the same bindings and
duplicate-free keys are equal. -/
theorem sorted_keys_perm_eq {β : Type} : ∀ (l1 l2 : List (String × β)),
    List.Perm l1 l2 → l1.Pairwise (fun a b => a.1 ≤ b.1) →
    l2.Pairwise (fun a b => a.1 ≤ b.1) → (l1.map Prod.fst).Nodup →
    l1 = l2 := by
  intro l1
  induction l1 with
  | nil =>
    intro l2 hp _ _ _
    exact hp.nil_eq
  | cons a t1 ih =>
    intro l2 hp hs1 hs2 hnd
    cases l2 with
    | nil =>
      have := hp.symm.nil_eq
      simp at this
    | cons b t2 =>
      have hab : a = b := by
        by_contra hab
        have ha2 : a ∈ b :: t2 := hp.subset (List.mem_cons_self a t1)
        have hb1 : b ∈ a :: t1 := hp.symm.subset (List.mem_cons_self b t2)
        have ha2' : a ∈ t2 := by
          rcases List.mem_cons.mp ha2 with h | h
          · exact absurd h hab
          · exact h
        have hb1' : b ∈ t1 := by
          rcases List.mem_cons.mp hb1 with h | h
          · exact absurd h.symm hab
          · exact h
        have h1 : a.1 ≤ b.1 := (List.pairwise_cons.mp hs1).1 b hb1'
        have h2 : b.1 ≤ a.1 := (List.pairwise_cons.mp hs2).1 a ha2'
        have hk : a.1 = b.1 := le_antisymm h1 h2
        have hmem : a.1 ∈ t1.map Prod.fst := by
          rw [hk]
          exact List.mem_map_of_mem _ hb1'
        rw [List.map_cons, List.nodup_cons] at hnd
        exact hnd.1 hmem
      subst hab
      have ht := ih t2 hp.cons_inv hs1.of_cons hs2.of_cons
        (by rw [List.map_cons, List.nodup_cons] at hnd; exact hnd.2)
      rw [ht]

theorem sortJFields_eq_map (fs : List (String × JVal)) :
    sortJFields fs = fs.map (fun kv => (kv.1, sortJ kv.2)) := by
  induction fs with
  | nil => rfl
  | cons kv rest ih =>
    obtain ⟨k, v⟩ := kv
    simp [sortJFields, ih]

/-- Sorting the dump of equal-as-mapping dicts gives the same list. -/
theorem mergeSort_keyLE_eq_of_perm (d1 d2 : List (String × JVal))
    (hnd : (d1.map Prod.fst).Nodup) (hperm : List.Perm d1 d2) :
    d1.mergeSort keyLE = d2.mergeSort keyLE := by
  have hperm12 : List.Perm (d1.mergeSort keyLE) (d2.mergeSort keyLE) :=
    (List.mergeSort_perm d1 keyLE).trans
      (hperm.trans (List.mergeSort_perm d2 keyLE).symm)
  have hs1 := List.sorted_mergeSort keyLE_trans keyLE_total d1
  have hs2 := List.sorted_mergeSort keyLE_trans keyLE_total d2
  have hnd1 : ((d1.mergeSort keyLE).map Prod.fst).Nodup := by
    have hpm : List.Perm ((d1.mergeSort keyLE).map Prod.fst)
        (d1.map Prod.fst) := (List.mergeSort_perm d1 keyLE).map _
    exact hpm.nodup_iff.mpr hnd
  refine sorted_keys_perm_eq _ _ hperm12 ?_ ?_ hnd1
  · refine hs1.imp ?_
    intro a b h
    simpa [keyLE] using h
  · refine hs2.imp ?_
    intro a b h
    simpa [keyLE] using h

/-- C7: report signing is deterministic for a fixed signing key: two
report dicts that are equal as mappings (same keys bound to the same
values, in any insertion order, keys duplicate-free) canonicalize to
byte-for-byte identical serializations, and `sign_report` on the same
service therefore returns identical signatures. -/
theorem sign_report_deterministic (svc : SigningService)
    (d1 d2 : List (String × JVal)) (hnd : (d1.map Prod.fst).Nodup)
    (hperm : List.Perm d1 d2) :
    canonicalJson d1 = canonicalJson d2
    ∧ svc.sign_report d1 = svc.sign_report d2 := by
  have hmain : canonicalJson d1 = canonicalJson d2 := by
    have hsort : sortJ (.jobj d1) = sortJ (.jobj d2) := by
      simp only [sortJ, sortJFields_eq_map]
      congr 1
      apply mergeSort_keyLE_eq_of_perm
      · have hfst : (d1.map (fun kv => (kv.1, sortJ kv.2))).map Prod.fst =
            d1.map Prod.fst := by
          rw [List.map_map]
          rfl
        rw [hfst]
        exact hnd
      · exact hperm.map _
    unfold canonicalJson
    rw [hsort]
  exact ⟨hmain, by unfold SigningService.sign_report; rw [hmain]⟩

/-- C7 witness: the same two-field dict in both insertion orders. -/
theorem sign_report_deterministic_witness :
    canonicalJson [("b", JVal.jnull), ("a", JVal.jnum 1)] =
      canonicalJson [("a", JVal.jnum 1), ("b", JVal.jnull)]
    ∧ demoSvc.sign_report [("b", JVal.jnull), ("a", JVal.jnum 1)] =
      demoSvc.sign_report [("a", JVal.jnum 1), ("b", JVal.jnull)] :=
  sign_report_deterministic demoSvc
    [("b", JVal.jnull), ("a", JVal.jnum 1)]
    [("a", JVal.jnum 1), ("b", JVal.jnull)]
    (by simp)
    (List.Perm.swap ("a", JVal.jnum 1) ("b", JVal.jnull) [])

/-- C2 counterexample: the sealer is not the last writer of the report:
after `signature` is assigned, `public_key` is assigned as well (None
at signing time, set before saving), so the report saved differs — in
its `public_key` (and `signature`) fields, hence in its canonical
serialization — from the snapshot that was signed. -/
theorem seal_mutates_after_signature_counterexample :
    (sealReport demoSvc demoReport).public_key = some "deadbeef"
    ∧ demoReport.public_key = none
    ∧ (sealReport demoSvc demoReport).signature =
      some (demoSvc.sign_report (reportDump demoReport))
    ∧ demoReport.signature = none :=
  ⟨rfl, rfl, rfl, rfl⟩

/-- C2 (amended): after the sealer sets `signature`, exactly one more
field is written before the report is saved: `public_key`.  All other
fields are unchanged, and the bytes that were signed are the canonical
serialization of the report as built — with `signature` and
`public_key` still null — not the canonical serialization of the
sealed report. -/
theorem sealReport_last_writer (svc : SigningService) (r : AuditReport) :
    (sealReport svc r).project_name = r.project_name
    ∧ (sealReport svc r).timestamp = r.timestamp
    ∧ (sealReport svc r).code_hash = r.code_hash
    ∧ (sealReport svc r).risk_level = r.risk_level
    ∧ (sealReport svc r).summary = r.summary
    ∧ (sealReport svc r).findings = r.findings
    ∧ (sealReport svc r).signature = some (svc.sign_report (reportDump r))
    ∧ (sealReport svc r).public_key = some svc.public_key_hex :=
  ⟨rfl, rfl, rfl, rfl, rfl, rfl, rfl, rfl⟩

/-- C5: `calculate_risk_level` is a pure function returning one of
CRITICAL, HIGH, MEDIUM, LOW, evaluated first-match-wins: any critical
finding gives CRITICAL; otherwise at least two high findings give HIGH;
otherwise exactly one high or at least three medium findings give
MEDIUM; otherwise LOW. -/
theorem calculate_risk_level_decision_list (l : List Finding) :
    (calculate_risk_level l = "CRITICAL" ∨ calculate_risk_level l = "HIGH" ∨
      calculate_risk_level l = "MEDIUM" ∨ calculate_risk_level l = "LOW")
    ∧ ((∃ f ∈ l, f.severity = .critical) → calculate_risk_level l = "CRITICAL")
    ∧ ((∀ f ∈ l, f.severity ≠ .critical) →
        2 ≤ l.countP (fun f => f.severity == .high) →
        calculate_risk_level l = "HIGH")
    ∧ ((∀ f ∈ l, f.severity ≠ .critical) →
        l.countP (fun f => f.severity == .high) < 2 →
        (l.countP (fun f => f.severity == .high) = 1 ∨
          3 ≤ l.countP (fun f => f.severity == .medium)) →
        calculate_risk_level l = "MEDIUM")
    ∧ ((∀ f ∈ l, f.severity ≠ .critical) →
        l.countP (fun f => f.severity == .high) = 0 →
        l.countP (fun f => f.severity == .medium) < 3 →
        calculate_risk_level l = "LOW") := by
  refine ⟨?_, ?_, ?_, ?_, ?_⟩
  · simp only [calculate_risk_level]
    repeat' split
    all_goals simp
  · rintro ⟨f, hf, hsev⟩
    have h : 0 < l.countP (fun f => f.severity == Severity.critical) :=
      List.countP_pos_iff.mpr ⟨f, hf, by simp [hsev]⟩
    simp [calculate_risk_level, h]
  · intro hnc h2
    have h0 : l.countP (fun f => f.severity == Severity.critical) = 0 :=
      List.countP_eq_zero.mpr (fun f hf => by simp [hnc f hf])
    simp [calculate_risk_level, h0, h2]
  · intro hnc hlt2 hmed
    have h0 : l.countP (fun f => f.severity == Severity.critical) = 0 :=
      List.countP_eq_zero.mpr (fun f hf => by simp [hnc f hf])
    rcases hmed with h1 | h3
    · simp [calculate_risk_level, h0, h1]
    · simp only [calculate_risk_level, h0]
      rw [if_neg (by omega), if_neg (by omega), if_pos (by simp; omega)]
  · intro hnc hh0 hm3
    have h0 : l.countP (fun f => f.severity == Severity.critical) = 0 :=
      List.countP_eq_zero.mpr (fun f hf => by simp [hnc f hf])
    simp only [calculate_risk_level, h0]
    rw [if_neg (by omega), if_neg (by omega), if_neg (by simp; omega)]

/-- C5 witness: a single critical finding is rated CRITICAL. -/
theorem calculate_risk_level_decision_list_witness :
    calculate_risk_level [demoCritical] = "CRITICAL" :=
  (calculate_risk_level_decision_list [demoCritical]).2.1
    ⟨demoCritical, by simp, rfl⟩

/-- Every risk label has rank at most 3. -/
theorem riskRank_le_three (s : String) : riskRank s ≤ 3 := by
  unfold riskRank
  repeat' split
  all_goals omega

/-- C8: appending a critical finding never lowers the aggregate risk
level in the order LOW < MEDIUM < HIGH < CRITICAL, and the empty
finding list is rated LOW. -/
theorem calculate_risk_level_critical_monotone (l : List Finding)
    (f : Finding) (hf : f.severity = .critical) :
    riskRank (calculate_risk_level l) ≤
      riskRank (calculate_risk_level (l ++ [f]))
    ∧ calculate_risk_level ([] : List Finding) = "LOW" := by
  constructor
  · have h : 0 < (l ++ [f]).countP (fun g => g.severity == Severity.critical) :=
      List.countP_pos_iff.mpr ⟨f, by simp, by simp [hf]⟩
    have hc : calculate_risk_level (l ++ [f]) = "CRITICAL" := by
      simp only [calculate_risk_level]
      rw [if_pos h]
    rw [hc]
    have h3 := riskRank_le_three (calculate_risk_level l)
    have h4 : riskRank "CRITICAL" = 3 := by decide
    omega
  · rfl

/-- C8 witness: instantiated at the empty list and a concrete critical
finding. -/
theorem calculate_risk_level_critical_monotone_witness :
    riskRank (calculate_risk_level []) ≤
      riskRank (calculate_risk_level ([] ++ [demoCritical]))
    ∧ calculate_risk_level ([] : List Finding) = "LOW" :=
  calculate_risk_level_critical_monotone [] demoCritical rfl

/-! ## Pipeline claims -/

/-- C6 counterexample: when the HTML rendering stage raises after
`save_report` has run, the job ends `failed` with the message stored,
but the saved report remains attached to the job record — the claim's
"no report is attached" is false. -/
theorem pipeline_failure_report_attached_counterexample :
    (run_audit_pipeline demoEnvHtmlFail demoStore "job-1" "demo").2 =
      .error "boom"
    ∧ (JobStore.get (run_audit_pipeline demoEnvHtmlFail demoStore
        "job-1" "demo").1 "job-1").map
        (fun r => (r.status, r.error, r.report.isSome)) =
      some (JobStatus.failed, some "boom", true) :=
  ⟨rfl, rfl⟩

/-- C6 (amended): if any pipeline stage raises, the job transitions to
`failed` and the exception propagates; the message is stored verbatim
when it is non-empty (an empty message leaves the previous error in
place, because `update_status` treats `""` as falsy); and the record
keeps its previous (absent) report when the failing stage is
extraction, analysis/consolidation, or sealing — whereas failures
after `save_report` (report persistence, HTML rendering or HTML
persistence) leave the already-attached report in place. -/
theorem pipeline_failure_marks_failed (env : PipelineEnv) (s : JobStore)
    (jid pn : String) (r0 : JobRecord) (h0 : JobStore.get s jid = some r0)
    (e : String)
    (hrun : (run_audit_pipeline env s jid pn).2 = .error e) :
    ∃ r', JobStore.get (run_audit_pipeline env s jid pn).1 jid = some r'
      ∧ r'.status = .failed
      ∧ (e ≠ "" → r'.error = some e)
      ∧ (e = "" → r'.error = r0.error)
      ∧ ((env.extractArchive = .error e ∨ env.analyzeDirectory = .error e
          ∨ env.sealStep = .error e) → r'.report = r0.report) := by
  obtain ⟨ch, ts, ext, ana, svc, sl, pj, rh, ph⟩ := env
  have h1 := get_update_status_none s jid .processing r0 h0
  cases ext with
  | error e' =>
    simp only [run_audit_pipeline] at hrun ⊢
    injection hrun with he
    subst he
    refine ⟨_, get_update_status_failed _ jid _ _ h1, rfl, ?_, ?_, ?_⟩
    · intro hne
      simp only [if_neg hne]
    · intro he
      simp only [if_pos he]
    · intro _
      rfl
  | ok u =>
    cases ana with
    | error e' =>
      simp only [run_audit_pipeline] at hrun ⊢
      injection hrun with he
      subst he
      refine ⟨_, get_update_status_failed _ jid _ _ h1, rfl, ?_, ?_, ?_⟩
      · intro hne
        simp only [if_neg hne]
      · intro he
        simp only [if_pos he]
      · intro _
        rfl
    | ok tup =>
      obtain ⟨findings, files_scanned, sol_files, analyzers⟩ := tup
      cases sl with
      | error e' =>
        simp only [run_audit_pipeline] at hrun ⊢
        injection hrun with he
        subst he
        refine ⟨_, get_update_status_failed _ jid _ _ h1, rfl, ?_, ?_, ?_⟩
        · intro hne
          simp only [if_neg hne]
        · intro he
          simp only [if_pos he]
        · intro _
          rfl
      | ok v =>
        have h2 := get_save_report_some _ jid
          (sealReport svc
            { project_name := pn, timestamp := ts, code_hash := ch,
              risk_level := calculate_risk_level findings,
              summary := buildSummary findings files_scanned sol_files
                analyzers,
              findings := findings }) _ h1
        cases pj with
        | error e' =>
          simp only [run_audit_pipeline] at hrun ⊢
          injection hrun with he
          subst he
          refine ⟨_, get_update_status_failed _ jid _ _ h2, rfl, ?_, ?_, ?_⟩
          · intro hne
            simp only [if_neg hne]
          · intro he
            simp only [if_pos he]
          · rintro (h | h | h) <;> exact Except.noConfusion h
        | ok w =>
          cases rh with
          | error e' =>
            simp only [run_audit_pipeline] at hrun ⊢
            injection hrun with he
            subst he
            refine ⟨_, get_update_status_failed _ jid _ _ h2, rfl, ?_, ?_, ?_⟩
            · intro hne
              simp only [if_neg hne]
            · intro he
              simp only [if_pos he]
            · rintro (h | h | h) <;> exact Except.noConfusion h
          | ok html =>
            cases ph with
            | error e' =>
              simp only [run_audit_pipeline] at hrun ⊢
              injection hrun with he
              subst he
              refine ⟨_, get_update_status_failed _ jid _ _ h2, rfl,
                ?_, ?_, ?_⟩
              · intro hne
                simp only [if_neg hne]
              · intro he
                simp only [if_pos he]
              · rintro (h | h | h) <;> exact Except.noConfusion h
            | ok x =>
              simp only [run_audit_pipeline] at hrun
              exact Except.noConfusion hrun

/-- C6 witness: instantiated on a run whose analysis stage raises with
a non-empty message. -/
theorem pipeline_failure_marks_failed_witness :
    ∃ r', JobStore.get (run_audit_pipeline demoEnvAnalyzeFail demoStore
        "job-1" "demo").1 "job-1" = some r'
      ∧ r'.status = .failed
      ∧ ("analyzer crashed" ≠ "" → r'.error = some "analyzer crashed")
      ∧ ("analyzer crashed" = "" →
          r'.error = ({ job_id := "job-1", project_name := "demo",
                        code_hash := "h" } : JobRecord).error)
      ∧ ((demoEnvAnalyzeFail.extractArchive = .error "analyzer crashed"
          ∨ demoEnvAnalyzeFail.analyzeDirectory = .error "analyzer crashed"
          ∨ demoEnvAnalyzeFail.sealStep = .error "analyzer crashed") →
          r'.report = ({ job_id := "job-1", project_name := "demo",
                         code_hash := "h" } : JobRecord).report) :=
  pipeline_failure_marks_failed demoEnvAnalyzeFail demoStore "job-1" "demo"
    { job_id := "job-1", project_name := "demo", code_hash := "h" }
    rfl "analyzer crashed" rfl

/-- C10: a successfully completed pipeline run returns a report whose
summary is consistent with its finding list: `total_findings` is the
list's length, each per-severity counter counts exactly the findings of
that severity, and the five counters sum to `total_findings`. -/
theorem pipeline_ok_summary_consistent (env : PipelineEnv) (s : JobStore)
    (jid pn : String) (r : AuditReport)
    (hrun : (run_audit_pipeline env s jid pn).2 = .ok r) :
    r.summary.total_findings = r.findings.length
    ∧ r.summary.critical = r.findings.countP (fun f => f.severity == .critical)
    ∧ r.summary.high = r.findings.countP (fun f => f.severity == .high)
    ∧ r.summary.medium = r.findings.countP (fun f => f.severity == .medium)
    ∧ r.summary.low = r.findings.countP (fun f => f.severity == .low)
    ∧ r.summary.info = r.findings.countP (fun f => f.severity == .info)
    ∧ r.summary.critical + r.summary.high + r.summary.medium +
        r.summary.low + r.summary.info = r.summary.total_findings := by
  obtain ⟨ch, ts, ext, ana, svc, sl, pj, rh, ph⟩ := env
  cases ext with
  | error e => simp [run_audit_pipeline] at hrun
  | ok u =>
    cases ana with
    | error e => simp [run_audit_pipeline] at hrun
    | ok tup =>
      obtain ⟨findings, files_scanned, sol_files, analyzers⟩ := tup
      cases sl with
      | error e => simp [run_audit_pipeline] at hrun
      | ok v =>
        cases pj with
        | error e => simp [run_audit_pipeline] at hrun
        | ok w =>
          cases rh with
          | error e => simp [run_audit_pipeline] at hrun
          | ok html =>
            cases ph with
            | error e => simp [run_audit_pipeline] at hrun
            | ok x =>
              simp only [run_audit_pipeline] at hrun
              injection hrun with he
              subst he
              refine ⟨rfl, rfl, rfl, rfl, rfl, rfl, ?_⟩
              exact severity_countP_sum findings

/-- C10 witness: instantiated on the fully successful demo run. -/
theorem pipeline_ok_summary_consistent_witness :
    demoOkReport.summary.total_findings = demoOkReport.findings.length
    ∧ demoOkReport.summary.critical =
      demoOkReport.findings.countP (fun f => f.severity == .critical)
    ∧ demoOkReport.summary.high =
      demoOkReport.findings.countP (fun f => f.severity == .high)
    ∧ demoOkReport.summary.medium =
      demoOkReport.findings.countP (fun f => f.severity == .medium)
    ∧ demoOkReport.summary.low =
      demoOkReport.findings.countP (fun f => f.severity == .low)
    ∧ demoOkReport.summary.info =
      demoOkReport.findings.countP (fun f => f.severity == .info)
    ∧ demoOkReport.summary.critical + demoOkReport.summary.high +
        demoOkReport.summary.medium + demoOkReport.summary.low +
        demoOkReport.summary.info = demoOkReport.summary.total_findings :=
  pipeline_ok_summary_consistent demoEnvOk demoStore "job-1" "demo"
    demoOkReport rfl

end Lintora
